import Mathlib

/-!
# Verification of the grepsql wrapper surface (src/wrapper.c)

`src/wrapper.c` consists of ten thin C functions: five value wrappers that
forward an input string to the corresponding `pg_query_*` library entry point
and return its result unmodified, and five free wrappers that forward a result
to the corresponding `pg_query_free_*` library call.  The wrapped library
itself is not part of the provided source, so its behaviour is modelled from
the specification where a claim depends on it; the wrapper layer is translated
directly from `wrapper.c`.
-/

set_option maxRecDepth 4000

/-- Modelled from the spec (§3 Data Model, Lexer §4.1): a token of the SQL
lexer.  Literal tokens (`num`, `str`) carry their raw text, `param` is a
`$n` positional placeholder, and every other character is its own token. -/
inductive Tok where
  | num (d : List Char)
  | str (s : List Char)
  | param (d : List Char)
  | other (c : Char)
  deriving DecidableEq, Repr

/-- Modelled from the spec (§3 Data Model): `Error: {message, byte offset
into original input, optional line/column}`. -/
structure PgError where
  message : String
  cursorpos : Nat
  deriving DecidableEq, Repr

/-- Modelled from the spec (§2 Result/Error Envelope): a uniform container
that on success holds the produced artifact and on failure holds a structured
error.  Mirroring the C structs, it has room for both fields; the
success-xor-failure discipline is an invariant proved below, not a typing
artifact. -/
structure PgResult (α : Type) where
  artifact : Option α
  error : Option PgError
  deriving DecidableEq, Repr

/-- Successful envelope: artifact present, no error. -/
def PgResult.mkOk (a : α) : PgResult α := ⟨some a, none⟩

/-- Failed envelope: error present, no artifact. -/
def PgResult.mkErr (e : PgError) : PgResult α := ⟨none, some e⟩

/-- Decimal digit test used by the modelled lexer. -/
def isDig (c : Char) : Bool := 48 ≤ c.toNat && c.toNat ≤ 57

/-- Consume a maximal run of decimal digits; returns the digits and the rest. -/
def munchDigits : List Char → List Char × List Char
  | [] => ([], [])
  | c :: cs =>
    if isDig c then
      ((munchDigits cs).1.cons c, (munchDigits cs).2)
    else
      ([], c :: cs)

/-- Consume a string-literal body up to (and including) the closing quote;
`none` when the literal is unterminated. -/
def munchStr : List Char → Option (List Char × List Char)
  | [] => none
  | c :: cs =>
    if c = '\'' then
      some ([], cs)
    else
      (munchStr cs).map (fun p => (p.1.cons c, p.2))

/-- Modelled from the spec (Lexer §4.1): fuel-indexed tokenizer.  `p` is the
current offset into the original input; a lexical failure (unterminated
string literal) is reported in-band as the offset of the offending opening
quote.  Digit runs become `num`, `'…'` becomes `str`, `$` followed by digits
becomes `param`, and any other character is an `other` token. -/
def tokenizeF : Nat → Nat → List Char → Except Nat (List Tok)
  | 0, p, _ => .error p
  | _ + 1, _, [] => .ok []
  | fuel + 1, p, c :: cs =>
    if isDig c then
      (tokenizeF fuel (p + 1 + (munchDigits cs).1.length) (munchDigits cs).2).map
        (fun ts => Tok.num (c :: (munchDigits cs).1) :: ts)
    else if c = '\'' then
      match munchStr cs with
      | none => .error p
      | some (s, r) => (tokenizeF fuel (p + 2 + s.length) r).map (fun ts => Tok.str s :: ts)
    else if c = '$' then
      match munchDigits cs with
      | ([], _) => (tokenizeF fuel (p + 1) cs).map (fun ts => Tok.other '$' :: ts)
      | (d, r) => (tokenizeF fuel (p + 1 + d.length) r).map (fun ts => Tok.param d :: ts)
    else
      (tokenizeF fuel (p + 1) cs).map (fun ts => Tok.other c :: ts)

/-- The tokenizer run with adequate fuel, starting at offset `p`. -/
def tokenizeL (p : Nat) (l : List Char) : Except Nat (List Tok) :=
  tokenizeF (l.length + 1) p l

/-- Text of one token. -/
def renderTok : Tok → List Char
  | .num d => d
  | .str s => '\'' :: (s ++ ['\''])
  | .param d => '$' :: d
  | .other c => [c]

/-- Text of a token list. -/
def renderL : List Tok → List Char
  | [] => []
  | t :: ts => renderTok t ++ renderL ts

/-- Character for one decimal digit value. -/
def digitChar : Nat → Char
  | 0 => '0' | 1 => '1' | 2 => '2' | 3 => '3' | 4 => '4'
  | 5 => '5' | 6 => '6' | 7 => '7' | 8 => '8' | _ => '9'

/-- Fuel-indexed accumulator loop producing the decimal digits of `n`, most
significant first, in front of `acc`. -/
def natDigitsAux : Nat → Nat → List Char → List Char
  | 0, _, acc => acc
  | fuel + 1, n, acc =>
    if n < 10 then digitChar n :: acc
    else natDigitsAux fuel (n / 10) (digitChar (n % 10) :: acc)

/-- Decimal digits of a natural number, most significant first. -/
def natDigits (n : Nat) : List Char := natDigitsAux (n + 1) n []

/-- Modelled from the spec (Normalizer §4.4): replace every literal constant
with a positional placeholder `$1`, `$2`, … numbered strictly left-to-right
by literal occurrence; all other tokens (existing params included) are kept
verbatim.  `k` counts the placeholders already emitted. -/
def normToksAux : List Tok → Nat → List Tok
  | [], _ => []
  | .num _ :: ts, k => .param (natDigits (k + 1)) :: normToksAux ts (k + 1)
  | .str _ :: ts, k => .param (natDigits (k + 1)) :: normToksAux ts (k + 1)
  | t :: ts, k => t :: normToksAux ts k

/-- Modelled from the spec (Parser §4.2): statements are split on `;`
top-level separators; the AST proper lives in the wrapped library and is out
of the fragment, so a parse artifact is modelled as the statement partition
of the token sequence. -/
def splitStmts : List Tok → List (List Tok)
  | [] => [[]]
  | .other ';' :: ts => [] :: splitStmts ts
  | t :: ts =>
    match splitStmts ts with
    | [] => [[t]]
    | g :: gs => (t :: g) :: gs

/-- Modelled from the spec (§4.6): tagged-union wire encoding of one token. -/
def serTok : Tok → List Nat
  | .num d => 0 :: d.length :: d.map Char.toNat
  | .str s => 1 :: s.length :: s.map Char.toNat
  | .param d => 2 :: d.length :: d.map Char.toNat
  | .other c => 3 :: [c.toNat]

/-- Modelled from the spec (§4.6, §6): self-describing wire form with a
mandatory format version tag in the header. -/
def serializeToks (ts : List Tok) : List Nat :=
  1 :: ts.length :: (ts.map serTok).flatten

/-- Shape of a token with literal payloads elided: two SQL texts "differ only
in literal values" exactly when their token sequences have equal shapes. -/
def tokShape : Tok → Tok
  | .num _ => .num []
  | .str _ => .str []
  | .param d => .param d
  | .other c => .other c

/-- One step of the modelled 64-bit structural hash (Fingerprinter §4.5). -/
def hashStep (h : Nat) (c : Char) : Nat := (h * 131 + c.toNat) % (2 ^ 64)

/-- Modelled from the spec (Fingerprinter §4.5): fixed-width non-cryptographic
hash of a character sequence. -/
def hashChars (l : List Char) : Nat := l.foldl hashStep (14695981039346656037 % 2 ^ 64)

/-- Run the modelled lexer on an input string and wrap the image of the token
sequence under `f` in the Result/Error envelope.  All failures are reported
in-band (§7); nothing is thrown. -/
def liftLex (f : List Tok → α) (s : String) : PgResult α :=
  match tokenizeL 0 s.data with
  | .ok ts => PgResult.mkOk (f ts)
  | .error q => PgResult.mkErr ⟨"unterminated string literal", q⟩

/-- Modelled from the spec: `parse(text) -> ParseResult` (§4.2). -/
def parse_model (s : String) : PgResult (List (List Tok)) := liftLex splitStmts s

/-- Modelled from the spec: `normalize(text) -> NormalizeResult` (§4.4). -/
def normalize_model (s : String) : PgResult String :=
  liftLex (fun ts => String.mk (renderL (normToksAux ts 0))) s

/-- Modelled from the spec: protobuf-based parse, producing the serialized
wire form of the parse artifact (§4.6). -/
def parse_protobuf_model (s : String) : PgResult (List Nat) :=
  liftLex serializeToks s

/-- Modelled from the spec: `fingerprint(text) -> FingerprintResult` (§4.5),
a structural hash computed after normalization-equivalent literal elision. -/
def fingerprint_model (s : String) : PgResult Nat :=
  liftLex (fun ts => hashChars (renderL (normToksAux ts 0))) s

/-- Modelled from the spec: `scan(text) -> ScanResult` (§4.1), the full token
sequence. -/
def scan_model (s : String) : PgResult (List Tok) := liftLex id s

/-! ## The wrapper layer, translated from src/wrapper.c

The wrapped library is external to the fragment: it is represented as a
structure of entry points, so that every statement about the wrappers holds
for an arbitrary library behaviour.  Result types are the modelled envelopes
above; free functions act on a modelled heap. -/

/-- Modelled heap: which buffer identifiers are currently allocated. -/
def Heap : Type := Nat → Bool

/-- Modelled from the spec (§5): releasing a list of heap buffers marks them
unallocated; releasing a buffer that is already unallocated (or was never
allocated) changes nothing. -/
def releaseBufs (bufs : List Nat) (h : Heap) : Heap :=
  fun n => if n ∈ bufs then false else h n

/-- The library surface used by wrapper.c: the five value entry points and
the five result-freeing entry points, with unconstrained behaviour. -/
structure PgQueryLib where
  pg_query_parse : String → PgResult (List (List Tok))
  pg_query_normalize : String → PgResult String
  pg_query_parse_protobuf : String → PgResult (List Nat)
  pg_query_fingerprint : String → PgResult Nat
  pg_query_scan : String → PgResult (List Tok)
  pg_query_free_parse_result : PgResult (List (List Tok)) → Heap → Heap
  pg_query_free_normalize_result : PgResult String → Heap → Heap
  pg_query_free_protobuf_parse_result : PgResult (List Nat) → Heap → Heap
  pg_query_free_fingerprint_result : PgResult Nat → Heap → Heap
  pg_query_free_scan_result : PgResult (List Tok) → Heap → Heap

/-- Translated from wrapper.c lines 4-6: `return pg_query_parse(input);`. -/
def pg_query_parse_wrapper (lib : PgQueryLib) (input : String) : PgResult (List (List Tok)) :=
  lib.pg_query_parse input

/-- Translated from wrapper.c lines 8-10: `pg_query_free_parse_result(result);`. -/
def pg_query_free_parse_result_wrapper (lib : PgQueryLib) (result : PgResult (List (List Tok))) :
    Heap → Heap :=
  lib.pg_query_free_parse_result result

/-- Translated from wrapper.c lines 12-14: `return pg_query_normalize(input);`. -/
def pg_query_normalize_wrapper (lib : PgQueryLib) (input : String) : PgResult String :=
  lib.pg_query_normalize input

/-- Translated from wrapper.c lines 16-18: `pg_query_free_normalize_result(result);`. -/
def pg_query_free_normalize_result_wrapper (lib : PgQueryLib) (result : PgResult String) :
    Heap → Heap :=
  lib.pg_query_free_normalize_result result

/-- Translated from wrapper.c lines 21-23: `return pg_query_parse_protobuf(input);`. -/
def pg_query_parse_protobuf_wrapper (lib : PgQueryLib) (input : String) : PgResult (List Nat) :=
  lib.pg_query_parse_protobuf input

/-- Translated from wrapper.c lines 25-27:
`pg_query_free_protobuf_parse_result(result);`. -/
def pg_query_free_protobuf_parse_result_wrapper (lib : PgQueryLib) (result : PgResult (List Nat)) :
    Heap → Heap :=
  lib.pg_query_free_protobuf_parse_result result

/-- Translated from wrapper.c lines 29-31: `return pg_query_fingerprint(input);`. -/
def pg_query_fingerprint_wrapper (lib : PgQueryLib) (input : String) : PgResult Nat :=
  lib.pg_query_fingerprint input

/-- Translated from wrapper.c lines 33-35: `pg_query_free_fingerprint_result(result);`. -/
def pg_query_free_fingerprint_result_wrapper (lib : PgQueryLib) (result : PgResult Nat) :
    Heap → Heap :=
  lib.pg_query_free_fingerprint_result result

/-- Translated from wrapper.c lines 37-39: `return pg_query_scan(input);`. -/
def pg_query_scan_wrapper (lib : PgQueryLib) (input : String) : PgResult (List Tok) :=
  lib.pg_query_scan input

/-- Translated from wrapper.c lines 41-43: `pg_query_free_scan_result(result);`. -/
def pg_query_free_scan_result_wrapper (lib : PgQueryLib) (result : PgResult (List Tok)) :
    Heap → Heap :=
  lib.pg_query_free_scan_result result

/-! State-passing semantics of the value wrappers.  wrapper.c declares no
global or static variable and its function bodies touch none, so the
semantics of each body over an ambient global state `g` is: call the library,
leave `g` unchanged. -/

/-- State-passing semantics of wrapper.c lines 4-6. -/
def pg_query_parse_wrapper_st (G : Type) (lib : PgQueryLib) (input : String) (g : G) :
    PgResult (List (List Tok)) × G :=
  (pg_query_parse_wrapper lib input, g)

/-- State-passing semantics of wrapper.c lines 12-14. -/
def pg_query_normalize_wrapper_st (G : Type) (lib : PgQueryLib) (input : String) (g : G) :
    PgResult String × G :=
  (pg_query_normalize_wrapper lib input, g)

/-- State-passing semantics of wrapper.c lines 21-23. -/
def pg_query_parse_protobuf_wrapper_st (G : Type) (lib : PgQueryLib) (input : String) (g : G) :
    PgResult (List Nat) × G :=
  (pg_query_parse_protobuf_wrapper lib input, g)

/-- State-passing semantics of wrapper.c lines 29-31. -/
def pg_query_fingerprint_wrapper_st (G : Type) (lib : PgQueryLib) (input : String) (g : G) :
    PgResult Nat × G :=
  (pg_query_fingerprint_wrapper lib input, g)

/-- State-passing semantics of wrapper.c lines 37-39. -/
def pg_query_scan_wrapper_st (G : Type) (lib : PgQueryLib) (input : String) (g : G) :
    PgResult (List Tok) × G :=
  (pg_query_scan_wrapper lib input, g)

/-! Pointer-level semantics of the value wrappers.  Each C wrapper takes a
`const char* input` and passes that pointer to the library verbatim; the
wrapper body performs no load or store of its own, so its memory semantics
is: hand the pointer and the current memory to the library, return exactly
the library's result and the library's resulting memory. -/

/-- A C pointer value; `0` is the null pointer. -/
def Ptr : Type := Nat

/-- The null pointer. -/
def nullPtr : Ptr := (0 : Nat)

/-- Byte-addressed memory. -/
def Mem : Type := Nat → Nat

/-- The library surface at the pointer level: each entry point may read
memory and may mutate memory outside the wrapper's control. -/
structure CPgQueryLib where
  pg_query_parse : Ptr → Mem → PgResult (List (List Tok)) × Mem
  pg_query_normalize : Ptr → Mem → PgResult String × Mem
  pg_query_parse_protobuf : Ptr → Mem → PgResult (List Nat) × Mem
  pg_query_fingerprint : Ptr → Mem → PgResult Nat × Mem
  pg_query_scan : Ptr → Mem → PgResult (List Tok) × Mem

/-- Pointer-level semantics of wrapper.c lines 4-6. -/
def pg_query_parse_wrapper_c (lib : CPgQueryLib) (input : Ptr) (m : Mem) :
    PgResult (List (List Tok)) × Mem :=
  lib.pg_query_parse input m

/-- Pointer-level semantics of wrapper.c lines 12-14. -/
def pg_query_normalize_wrapper_c (lib : CPgQueryLib) (input : Ptr) (m : Mem) :
    PgResult String × Mem :=
  lib.pg_query_normalize input m

/-- Pointer-level semantics of wrapper.c lines 21-23. -/
def pg_query_parse_protobuf_wrapper_c (lib : CPgQueryLib) (input : Ptr) (m : Mem) :
    PgResult (List Nat) × Mem :=
  lib.pg_query_parse_protobuf input m

/-- Pointer-level semantics of wrapper.c lines 29-31. -/
def pg_query_fingerprint_wrapper_c (lib : CPgQueryLib) (input : Ptr) (m : Mem) :
    PgResult Nat × Mem :=
  lib.pg_query_fingerprint input m

/-- Pointer-level semantics of wrapper.c lines 37-39. -/
def pg_query_scan_wrapper_c (lib : CPgQueryLib) (input : Ptr) (m : Mem) :
    PgResult (List Tok) × Mem :=
  lib.pg_query_scan input m

/-! ## The declaration surface of wrapper.c

A faithful table of the ten functions the fragment defines: for each, the
symbol it exports, the library entry point its body calls, and the C result
type it returns (value wrappers) or releases (free wrappers). -/

/-- One row per function defined in wrapper.c, in source order:
(exported symbol, library entry point called, result type involved,
is it a free wrapper). -/
def wrapperTable : List (String × String × String × Bool) :=
  [ ("pg_query_parse_wrapper", "pg_query_parse", "PgQueryParseResult", false),
    ("pg_query_free_parse_result_wrapper", "pg_query_free_parse_result",
      "PgQueryParseResult", true),
    ("pg_query_normalize_wrapper", "pg_query_normalize", "PgQueryNormalizeResult", false),
    ("pg_query_free_normalize_result_wrapper", "pg_query_free_normalize_result",
      "PgQueryNormalizeResult", true),
    ("pg_query_parse_protobuf_wrapper", "pg_query_parse_protobuf",
      "PgQueryProtobufParseResult", false),
    ("pg_query_free_protobuf_parse_result_wrapper", "pg_query_free_protobuf_parse_result",
      "PgQueryProtobufParseResult", true),
    ("pg_query_fingerprint_wrapper", "pg_query_fingerprint",
      "PgQueryFingerprintResult", false),
    ("pg_query_free_fingerprint_result_wrapper", "pg_query_free_fingerprint_result",
      "PgQueryFingerprintResult", true),
    ("pg_query_scan_wrapper", "pg_query_scan", "PgQueryScanResult", false),
    ("pg_query_free_scan_result_wrapper", "pg_query_free_scan_result",
      "PgQueryScanResult", true) ]

/-- Does `pat` occur at the head of `l`? -/
def beginsWith : List Char → List Char → Bool
  | [], _ => true
  | _ :: _, [] => false
  | p :: ps, c :: cs => p == c && beginsWith ps cs

/-- Does `pat` occur anywhere inside `l`? -/
def containsSeq (pat : List Char) : List Char → Bool
  | [] => beginsWith pat []
  | c :: cs => beginsWith pat (c :: cs) || containsSeq pat cs

/-! ## A concrete library instance built from the spec-modelled operations -/

/-- Buffer-ownership assignment: which heap buffers each result owns.  The
fragment gives no allocator, so the assignment is a parameter of the model. -/
structure BufModel where
  parseBufs : PgResult (List (List Tok)) → List Nat
  normalizeBufs : PgResult String → List Nat
  protobufBufs : PgResult (List Nat) → List Nat
  fingerprintBufs : PgResult Nat → List Nat
  scanBufs : PgResult (List Tok) → List Nat

/-- The spec-modelled library: value entry points are the modelled
operations, free entry points release exactly the buffers the given result
owns under the buffer model `b`. -/
def modelLib (b : BufModel) : PgQueryLib where
  pg_query_parse := parse_model
  pg_query_normalize := normalize_model
  pg_query_parse_protobuf := parse_protobuf_model
  pg_query_fingerprint := fingerprint_model
  pg_query_scan := scan_model
  pg_query_free_parse_result := fun r => releaseBufs (b.parseBufs r)
  pg_query_free_normalize_result := fun r => releaseBufs (b.normalizeBufs r)
  pg_query_free_protobuf_parse_result := fun r => releaseBufs (b.protobufBufs r)
  pg_query_free_fingerprint_result := fun r => releaseBufs (b.fingerprintBufs r)
  pg_query_free_scan_result := fun r => releaseBufs (b.scanBufs r)

/-- The trivial buffer model: results own no buffers. -/
def emptyBufModel : BufModel where
  parseBufs := fun _ => []
  normalizeBufs := fun _ => []
  protobufBufs := fun _ => []
  fingerprintBufs := fun _ => []
  scanBufs := fun _ => []

/-! ## Lemmas about the modelled lexer -/

/-- The head of `l`, if any, is not a digit. -/
def headNotDig (l : List Char) : Prop :=
  ∀ c, l.head? = some c → isDig c = false

/-- Every character munched by `munchDigits` is a digit. -/
theorem munchDigits_all_dig (l : List Char) : ∀ c ∈ (munchDigits l).1, isDig c = true := by
  induction l with
  | nil => simp [munchDigits]
  | cons c cs ih =>
    by_cases h : isDig c = true
    · simpa [munchDigits, h] using ih
    · simp [munchDigits, h]

/-- `munchDigits` consumes no character of a list whose head is not a digit. -/
theorem munchDigits_of_head (l : List Char) (h : headNotDig l) : munchDigits l = ([], l) := by
  cases l with
  | nil => rfl
  | cons c cs => simp [munchDigits, h c rfl]

/-- `munchDigits` splits off exactly a leading block of digits. -/
theorem munchDigits_append (d x : List Char) (hd : ∀ c ∈ d, isDig c = true)
    (hx : headNotDig x) : munchDigits (d ++ x) = (d, x) := by
  induction d with
  | nil => simpa using munchDigits_of_head x hx
  | cons c cs ih =>
    have hc : isDig c = true := hd c (by simp)
    have := ih (fun a ha => hd a (by simp [ha]))
    simp [munchDigits, hc, this]

/-- `munchDigits` partitions the input. -/
theorem munchDigits_length (l : List Char) :
    (munchDigits l).1.length + (munchDigits l).2.length = l.length := by
  induction l with
  | nil => rfl
  | cons c cs ih =>
    by_cases h : isDig c = true
    · simp [munchDigits, h]; omega
    · simp [munchDigits, h]

/-- A munched string-literal body contains no quote character. -/
theorem munchStr_no_quote (l s r : List Char) (h : munchStr l = some (s, r)) : '\'' ∉ s := by
  induction l generalizing s r with
  | nil => simp [munchStr] at h
  | cons c cs ih =>
    by_cases hc : c = '\''
    · simp [munchStr, hc] at h
      simp [h.1]
    · cases hm : munchStr cs with
      | none => simp [munchStr, hc, hm] at h
      | some p =>
        obtain ⟨a, b⟩ := p
        simp [munchStr, hc, hm] at h
        obtain ⟨hs, hr⟩ := h
        subst hs
        intro hmem
        rcases List.mem_cons.mp hmem with h | h
        · exact hc h.symm
        · exact ih a b hm h

/-- `munchStr` accounts for the body and the closing quote. -/
theorem munchStr_length (l s r : List Char) (h : munchStr l = some (s, r)) :
    s.length + 1 + r.length = l.length := by
  induction l generalizing s r with
  | nil => simp [munchStr] at h
  | cons c cs ih =>
    by_cases hc : c = '\''
    · simp [munchStr, hc] at h
      obtain ⟨hs, hr⟩ := h
      subst hs
      subst hr
      simp
      omega
    · cases hm : munchStr cs with
      | none => simp [munchStr, hc, hm] at h
      | some p =>
        obtain ⟨a, b⟩ := p
        simp [munchStr, hc, hm] at h
        obtain ⟨hs, hr⟩ := h
        subst hs
        subst hr
        have := ih a b hm
        simp
        omega

/-- If mapping an `Except` yields a success, it was a success. -/
theorem except_map_eq_ok {ε α β : Type} (f : α → β) (e : Except ε α) (b : β)
    (h : e.map f = .ok b) : ∃ a, e = .ok a ∧ b = f a := by
  cases e with
  | error q => simp [Except.map] at h
  | ok a => exact ⟨a, rfl, by simpa [Except.map] using h.symm⟩

/-- If mapping an `Except` yields an error, the error was already there. -/
theorem except_map_eq_error {ε α β : Type} (f : α → β) (e : Except ε α) (q : ε)
    (h : e.map f = .error q) : e = .error q := by
  cases e with
  | error q0 => simpa [Except.map] using h
  | ok a => simp [Except.map] at h

/-- Well-formedness of a token produced by the modelled lexer. -/
def TokWF : Tok → Prop
  | .num d => d ≠ [] ∧ ∀ c ∈ d, isDig c = true
  | .str s => '\'' ∉ s
  | .param d => d ≠ [] ∧ ∀ c ∈ d, isDig c = true
  | .other c => isDig c = false ∧ c ≠ '\''

/-- Well-formedness of a token of normalized output: literal-free. -/
def NormTok : Tok → Prop
  | .num _ => False
  | .str _ => False
  | .param d => d ≠ [] ∧ ∀ c ∈ d, isDig c = true
  | .other c => isDig c = false ∧ c ≠ '\''

/-- Characters emitted for single digit values are digits. -/
theorem isDig_digitChar (d : Nat) : isDig (digitChar d) = true := by
  unfold digitChar
  split <;> decide

/-- Every character of the digit rendering loop is a digit. -/
theorem natDigitsAux_all_dig (fuel n : Nat) (acc : List Char)
    (hacc : ∀ c ∈ acc, isDig c = true) : ∀ c ∈ natDigitsAux fuel n acc, isDig c = true := by
  induction fuel generalizing n acc with
  | zero => simpa [natDigitsAux] using hacc
  | succ fuel ih =>
    by_cases h : n < 10
    · simp only [natDigitsAux, h, if_pos]
      intro c hc
      rcases List.mem_cons.mp hc with h1 | h1
      · simp [h1, isDig_digitChar]
      · exact hacc c h1
    · simp only [natDigitsAux, h, if_neg, not_false_iff]
      refine ih (n / 10) (digitChar (n % 10) :: acc) ?_
      intro c hc
      rcases List.mem_cons.mp hc with h1 | h1
      · simp [h1, isDig_digitChar]
      · exact hacc c h1

/-- The digit rendering loop never returns an empty list when fed a nonempty
accumulator. -/
theorem natDigitsAux_ne_nil_of_acc (fuel n : Nat) (acc : List Char) (hacc : acc ≠ []) :
    natDigitsAux fuel n acc ≠ [] := by
  induction fuel generalizing n acc with
  | zero => simpa [natDigitsAux] using hacc
  | succ fuel ih =>
    by_cases h : n < 10
    · simp [natDigitsAux, h]
    · simp only [natDigitsAux, h, if_neg, not_false_iff]
      exact ih (n / 10) (digitChar (n % 10) :: acc) (by simp)

/-- `natDigits` never returns the empty list. -/
theorem natDigits_ne_nil (n : Nat) : natDigits n ≠ [] := by
  unfold natDigits natDigitsAux
  by_cases h : n < 10
  · simp [h]
  · simp only [h, if_neg, not_false_iff]
    exact natDigitsAux_ne_nil_of_acc n (n / 10) [digitChar (n % 10)] (by simp)

/-- Every character of `natDigits` is a digit. -/
theorem natDigits_all_dig (n : Nat) : ∀ c ∈ natDigits n, isDig c = true :=
  natDigitsAux_all_dig (n + 1) n [] (by simp)

/-- Every token produced by the modelled lexer is well formed. -/
theorem tokenizeF_succ_cons (fuel p : Nat) (c : Char) (cs : List Char) :
    tokenizeF (fuel + 1) p (c :: cs) =
      if isDig c then
        (tokenizeF fuel (p + 1 + (munchDigits cs).1.length) (munchDigits cs).2).map
          (fun ts => Tok.num (c :: (munchDigits cs).1) :: ts)
      else if c = '\'' then
        match munchStr cs with
        | none => .error p
        | some (s, r) => (tokenizeF fuel (p + 2 + s.length) r).map (fun ts => Tok.str s :: ts)
      else if c = '$' then
        match munchDigits cs with
        | ([], _) => (tokenizeF fuel (p + 1) cs).map (fun ts => Tok.other '$' :: ts)
        | (d, r) => (tokenizeF fuel (p + 1 + d.length) r).map (fun ts => Tok.param d :: ts)
      else
        (tokenizeF fuel (p + 1) cs).map (fun ts => Tok.other c :: ts) := rfl

/-- Every token produced by the modelled lexer is well formed. -/
theorem tokenizeF_wf (fuel : Nat) (p : Nat) (l : List Char) (ts : List Tok)
    (hfuel : l.length < fuel) (h : tokenizeF fuel p l = .ok ts) : ∀ t ∈ ts, TokWF t := by
  induction fuel generalizing p l ts with
  | zero => omega
  | succ fuel ih =>
    cases l with
    | nil =>
      simp only [tokenizeF] at h
      cases h
      simp
    | cons c cs =>
      rw [tokenizeF_succ_cons] at h
      by_cases hc : isDig c = true
      · rw [if_pos hc] at h
        obtain ⟨ts0, h0, hts⟩ := except_map_eq_ok _ _ _ h
        subst hts
        have hlen := munchDigits_length cs
        have hrec := ih (p + 1 + (munchDigits cs).1.length) (munchDigits cs).2 ts0
          (by simp at hfuel ⊢; omega) h0
        intro t ht
        rcases List.mem_cons.mp ht with h1 | h1
        · subst h1
          refine ⟨by simp, ?_⟩
          intro a ha
          rcases List.mem_cons.mp ha with h2 | h2
          · simp [h2, hc]
          · exact munchDigits_all_dig cs a h2
        · exact hrec t h1
      · rw [if_neg hc] at h
        by_cases hq : c = '\''
        · rw [if_pos hq] at h
          cases hm : munchStr cs with
          | none => rw [hm] at h; cases h
          | some pr =>
            obtain ⟨s, r⟩ := pr
            rw [hm] at h
            obtain ⟨ts0, h0, hts⟩ := except_map_eq_ok _ _ _ h
            subst hts
            have hlen := munchStr_length cs s r hm
            have hrec := ih (p + 2 + s.length) r ts0 (by simp at hfuel ⊢; omega) h0
            intro t ht
            rcases List.mem_cons.mp ht with h1 | h1
            · subst h1
              exact munchStr_no_quote cs s r hm
            · exact hrec t h1
        · rw [if_neg hq] at h
          by_cases hd : c = '$'
          · rw [if_pos hd] at h
            cases hm : munchDigits cs with
            | mk d r =>
              cases d with
              | nil =>
                rw [hm] at h
                obtain ⟨ts0, h0, hts⟩ := except_map_eq_ok _ _ _ h
                subst hts
                have hrec := ih (p + 1) cs ts0 (by simp at hfuel ⊢; omega) h0
                intro t ht
                rcases List.mem_cons.mp ht with h1 | h1
                · subst h1
                  exact ⟨by decide, by decide⟩
                · exact hrec t h1
              | cons d0 ds =>
                rw [hm] at h
                obtain ⟨ts0, h0, hts⟩ := except_map_eq_ok _ _ _ h
                subst hts
                have hlen := munchDigits_length cs
                rw [hm] at hlen
                have hrec := ih (p + 1 + (d0 :: ds).length) r ts0
                  (by simp at hfuel hlen ⊢; omega) h0
                intro t ht
                rcases List.mem_cons.mp ht with h1 | h1
                · subst h1
                  refine ⟨by simp, ?_⟩
                  intro a ha
                  have hall := munchDigits_all_dig cs
                  rw [hm] at hall
                  exact hall a ha
                · exact hrec t h1
          · rw [if_neg hd] at h
            obtain ⟨ts0, h0, hts⟩ := except_map_eq_ok _ _ _ h
            subst hts
            have hrec := ih (p + 1) cs ts0 (by simp at hfuel ⊢; omega) h0
            intro t ht
            rcases List.mem_cons.mp ht with h1 | h1
            · subst h1
              exact ⟨by simpa using hc, hq⟩
            · exact hrec t h1

/-- The rendering of a literal-free token list never starts with a digit. -/
theorem renderL_head_not_dig (ts : List Tok) (h : ∀ t ∈ ts, NormTok t) :
    headNotDig (renderL ts) := by
  cases ts with
  | nil => intro c hc; simp [renderL] at hc
  | cons t rest =>
    have ht : NormTok t := h t (by simp)
    cases t with
    | num d => exact absurd ht (by simp [NormTok])
    | str s => exact absurd ht (by simp [NormTok])
    | param d =>
      intro c hc
      simp [renderL, renderTok] at hc
      rw [← hc]
      decide
    | other c0 =>
      intro c hc
      simp [renderL, renderTok] at hc
      rw [← hc]
      exact ht.1

/-- Normalized output contains only literal-free well-formed tokens. -/
theorem normToksAux_wf (ts : List Tok) (k : Nat) (h : ∀ t ∈ ts, TokWF t) :
    ∀ t ∈ normToksAux ts k, NormTok t := by
  induction ts generalizing k with
  | nil => simp [normToksAux]
  | cons t rest ih =>
    have ht : TokWF t := h t (by simp)
    have hrest : ∀ u ∈ rest, TokWF u := fun u hu => h u (by simp [hu])
    cases t with
    | num d =>
      intro u hu
      rcases List.mem_cons.mp (by simpa [normToksAux] using hu) with h1 | h1
      · subst h1
        exact ⟨natDigits_ne_nil (k + 1), natDigits_all_dig (k + 1)⟩
      · exact ih (k + 1) hrest u h1
    | str s =>
      intro u hu
      rcases List.mem_cons.mp (by simpa [normToksAux] using hu) with h1 | h1
      · subst h1
        exact ⟨natDigits_ne_nil (k + 1), natDigits_all_dig (k + 1)⟩
      · exact ih (k + 1) hrest u h1
    | param d =>
      intro u hu
      rcases List.mem_cons.mp (by simpa [normToksAux] using hu) with h1 | h1
      · subst h1
        exact ht
      · exact ih k hrest u h1
    | other c =>
      intro u hu
      rcases List.mem_cons.mp (by simpa [normToksAux] using hu) with h1 | h1
      · subst h1
        exact ht
      · exact ih k hrest u h1

/-- Re-lexing the rendering of a literal-free well-formed token list gives
back exactly that token list, at any starting offset and any adequate fuel. -/
theorem tokenizeF_renderL (ts : List Tok) (h : ∀ t ∈ ts, NormTok t) (p fuel : Nat)
    (hfuel : (renderL ts).length < fuel) : tokenizeF fuel p (renderL ts) = .ok ts := by
  induction ts generalizing p fuel with
  | nil =>
    cases fuel with
    | zero => omega
    | succ fuel => simp [renderL, tokenizeF]
  | cons t rest ih =>
    have ht : NormTok t := h t (by simp)
    have hrest : ∀ u ∈ rest, NormTok u := fun u hu => h u (by simp [hu])
    have hhead := renderL_head_not_dig rest hrest
    cases t with
    | num d => exact absurd ht (by simp [NormTok])
    | str s => exact absurd ht (by simp [NormTok])
    | param d =>
      obtain ⟨hne, hdig⟩ := ht
      have hrender : renderL (.param d :: rest) = '$' :: (d ++ renderL rest) := by
        simp [renderL, renderTok]
      rw [hrender] at hfuel ⊢
      cases fuel with
      | zero => omega
      | succ fuel =>
        rw [tokenizeF_succ_cons, if_neg (by decide), if_neg (by decide), if_pos rfl,
          munchDigits_append d (renderL rest) hdig hhead]
        cases d with
        | nil => exact absurd rfl hne
        | cons d0 ds =>
          show (tokenizeF fuel (p + 1 + (d0 :: ds).length) (renderL rest)).map
              (fun ts => Tok.param (d0 :: ds) :: ts) = Except.ok (Tok.param (d0 :: ds) :: rest)
          rw [ih hrest (p + 1 + (d0 :: ds).length) fuel (by simp at hfuel ⊢; omega)]
          rfl
    | other c =>
      obtain ⟨hcd, hcq⟩ := ht
      have hrender : renderL (.other c :: rest) = c :: renderL rest := by
        simp [renderL, renderTok]
      rw [hrender] at hfuel ⊢
      cases fuel with
      | zero => omega
      | succ fuel =>
        rw [tokenizeF_succ_cons, if_neg (by simp [hcd]), if_neg hcq]
        by_cases hdl : c = '$'
        · subst hdl
          rw [if_pos rfl, munchDigits_of_head (renderL rest) hhead]
          show (tokenizeF fuel (p + 1) (renderL rest)).map
              (fun ts => Tok.other '$' :: ts) = Except.ok (Tok.other '$' :: rest)
          rw [ih hrest (p + 1) fuel (by simp at hfuel ⊢; omega)]
          rfl
        · rw [if_neg hdl]
          rw [ih hrest (p + 1) fuel (by simp at hfuel ⊢; omega)]
          rfl

/-- Normalization does not change a literal-free token list. -/
theorem normToksAux_fixpoint (ts : List Tok) (k : Nat) (h : ∀ t ∈ ts, NormTok t) :
    normToksAux ts k = ts := by
  induction ts generalizing k with
  | nil => rfl
  | cons t rest ih =>
    have ht : NormTok t := h t (by simp)
    have hrest : ∀ u ∈ rest, NormTok u := fun u hu => h u (by simp [hu])
    cases t with
    | num d => exact absurd ht (by simp [NormTok])
    | str s => exact absurd ht (by simp [NormTok])
    | param d => simp [normToksAux, ih k hrest]
    | other c => simp [normToksAux, ih k hrest]

/-- A lexical error is reported at an offset inside the input slice. -/
theorem tokenizeF_error_bound (fuel p : Nat) (l : List Char) (q : Nat)
    (hfuel : l.length < fuel) (h : tokenizeF fuel p l = .error q) :
    p ≤ q ∧ q < p + l.length := by
  induction fuel generalizing p l q with
  | zero => omega
  | succ fuel ih =>
    cases l with
    | nil => simp [tokenizeF] at h
    | cons c cs =>
      rw [tokenizeF_succ_cons] at h
      by_cases hc : isDig c = true
      · rw [if_pos hc] at h
        have h0 := except_map_eq_error _ _ _ h
        have hlen := munchDigits_length cs
        have := ih (p + 1 + (munchDigits cs).1.length) (munchDigits cs).2 q
          (by simp at hfuel ⊢; omega) h0
        simp at hfuel ⊢
        omega
      · rw [if_neg hc] at h
        by_cases hq : c = '\''
        · rw [if_pos hq] at h
          cases hm : munchStr cs with
          | none =>
            rw [hm] at h
            cases h
            simp
          | some pr =>
            obtain ⟨s, r⟩ := pr
            rw [hm] at h
            have h0 := except_map_eq_error _ _ _ h
            have hlen := munchStr_length cs s r hm
            have := ih (p + 2 + s.length) r q (by simp at hfuel ⊢; omega) h0
            simp at hfuel ⊢
            omega
        · rw [if_neg hq] at h
          by_cases hd : c = '$'
          · rw [if_pos hd] at h
            cases hm : munchDigits cs with
            | mk d r =>
              cases d with
              | nil =>
                rw [hm] at h
                have h0 := except_map_eq_error _ _ _ h
                have := ih (p + 1) cs q (by simp at hfuel ⊢; omega) h0
                simp at hfuel ⊢
                omega
              | cons d0 ds =>
                rw [hm] at h
                have h0 := except_map_eq_error _ _ _ h
                have hlen := munchDigits_length cs
                rw [hm] at hlen
                have := ih (p + 1 + (d0 :: ds).length) r q
                  (by simp at hfuel hlen ⊢; omega) h0
                simp at hfuel hlen this ⊢
                omega
          · rw [if_neg hd] at h
            have h0 := except_map_eq_error _ _ _ h
            have := ih (p + 1) cs q (by simp at hfuel ⊢; omega) h0
            simp at hfuel ⊢
            omega

/-- Token lists of equal literal-elided shape normalize identically. -/
theorem normToksAux_shape_eq (ts1 ts2 : List Tok) (k : Nat)
    (h : ts1.map tokShape = ts2.map tokShape) : normToksAux ts1 k = normToksAux ts2 k := by
  induction ts1 generalizing ts2 k with
  | nil =>
    cases ts2 with
    | nil => rfl
    | cons t2 rest2 => simp at h
  | cons t1 rest1 ih =>
    cases ts2 with
    | nil => simp at h
    | cons t2 rest2 =>
      simp only [List.map_cons, List.cons.injEq] at h
      obtain ⟨hhead, htail⟩ := h
      cases t1 <;> cases t2 <;> simp [tokShape] at hhead <;>
        simp [normToksAux, ih rest2 _ htail, hhead]

/-- Generic success-xor-failure for every operation built over the modelled
lexer: the envelope holds the artifact exactly when it holds no error. -/
theorem liftLex_xor {α : Type} (f : List Tok → α) (s : String) :
    ((liftLex f s).artifact.isSome ∧ (liftLex f s).error = none) ∨
      ((liftLex f s).artifact = none ∧ (liftLex f s).error.isSome) := by
  unfold liftLex
  cases tokenizeL 0 s.data with
  | ok ts => left; simp [PgResult.mkOk]
  | error q => right; simp [PgResult.mkErr]

/-- Generic in-band error reporting with position information: every failure
of an operation built over the modelled lexer is returned as an error value
whose byte offset points inside the offending input. -/
theorem liftLex_error_pos {α : Type} (f : List Tok → α) (s : String) (e : PgError)
    (h : (liftLex f s).error = some e) : e.cursorpos < s.length := by
  unfold liftLex at h
  cases hm : tokenizeL 0 s.data with
  | ok ts => rw [hm] at h; simp [PgResult.mkOk] at h
  | error q =>
    rw [hm] at h
    simp [PgResult.mkErr] at h
    subst h
    have := tokenizeF_error_bound (s.data.length + 1) 0 s.data q (by omega) hm
    have hslen : s.length = s.data.length := rfl
    show q < s.length
    omega

/-! ## Claims -/

/-- Generic release lemma: releasing a buffer list twice equals releasing it
once. -/
theorem releaseBufs_idem (bufs : List Nat) (h : Heap) :
    releaseBufs bufs (releaseBufs bufs h) = releaseBufs bufs h := by
  funext n
  by_cases hn : n ∈ bufs <;> simp [releaseBufs, hn]

/-- Generic release lemma: releasing buffers that are not allocated is a
no-op on the heap. -/
theorem releaseBufs_noop (bufs : List Nat) (h : Heap)
    (hfree : ∀ n ∈ bufs, h n = false) : releaseBufs bufs h = h := by
  funext n
  by_cases hn : n ∈ bufs
  · simp [releaseBufs, hn, (hfree n hn).symm]
  · simp [releaseBufs, hn]

/-- C1: for every library behaviour and every input, each public value
wrapper returns exactly the result of the corresponding library entry point
on that input, unmodified, and each free wrapper performs exactly the
corresponding library free call on its argument (same result, same heap
effect). -/
theorem c1_wrappers_forward_library (lib : PgQueryLib) (input : String)
    (r1 : PgResult (List (List Tok))) (r2 : PgResult String) (r3 : PgResult (List Nat))
    (r4 : PgResult Nat) (r5 : PgResult (List Tok)) (h : Heap) :
    pg_query_parse_wrapper lib input = lib.pg_query_parse input ∧
    pg_query_normalize_wrapper lib input = lib.pg_query_normalize input ∧
    pg_query_parse_protobuf_wrapper lib input = lib.pg_query_parse_protobuf input ∧
    pg_query_fingerprint_wrapper lib input = lib.pg_query_fingerprint input ∧
    pg_query_scan_wrapper lib input = lib.pg_query_scan input ∧
    pg_query_free_parse_result_wrapper lib r1 h = lib.pg_query_free_parse_result r1 h ∧
    pg_query_free_normalize_result_wrapper lib r2 h = lib.pg_query_free_normalize_result r2 h ∧
    pg_query_free_protobuf_parse_result_wrapper lib r3 h =
      lib.pg_query_free_protobuf_parse_result r3 h ∧
    pg_query_free_fingerprint_result_wrapper lib r4 h = lib.pg_query_free_fingerprint_result r4 h ∧
    pg_query_free_scan_result_wrapper lib r5 h = lib.pg_query_free_scan_result r5 h :=
  ⟨rfl, rfl, rfl, rfl, rfl, rfl, rfl, rfl, rfl, rfl⟩

/-- C1 witness: the forwarding equalities at a concrete library and input. -/
theorem c1_witness :
    pg_query_parse_wrapper (modelLib emptyBufModel) "SELECT 1" =
      (modelLib emptyBufModel).pg_query_parse "SELECT 1" :=
  (c1_wrappers_forward_library (modelLib emptyBufModel) "SELECT 1" (PgResult.mkOk [])
    (PgResult.mkOk "") (PgResult.mkOk []) (PgResult.mkOk 0) (PgResult.mkOk [])
    (fun _ => false)).1

/-- C2 counterexample: the claim that the fragment contains a wrapper for a
deparse-from-protobuf entry point is false — no symbol defined in wrapper.c,
and no library entry point called by wrapper.c, mentions deparse at all. -/
theorem c2_counterexample_no_deparse_wrapper :
    (wrapperTable.all (fun row =>
      !containsSeq "deparse".data row.1.data &&
        !containsSeq "deparse".data row.2.1.data)) = true := by
  decide

/-- C2 (amended): the fragment exposes one wrapper API which includes a
protobuf-based parse wrapper (SQL to protobuf) alongside scan and
fingerprint wrappers; it contains no deparse-from-protobuf wrapper. -/
theorem c2_surface_protobuf_scan_fingerprint :
    ("pg_query_parse_protobuf_wrapper", "pg_query_parse_protobuf",
        "PgQueryProtobufParseResult", false) ∈ wrapperTable ∧
    ("pg_query_scan_wrapper", "pg_query_scan", "PgQueryScanResult", false) ∈ wrapperTable ∧
    ("pg_query_fingerprint_wrapper", "pg_query_fingerprint",
        "PgQueryFingerprintResult", false) ∈ wrapperTable ∧
    (wrapperTable.all (fun row => !containsSeq "deparse".data row.2.1.data)) = true := by
  refine ⟨by decide, by decide, by decide, by decide⟩

/-- C3: every Result-producing wrapper in the surface is paired with exactly
one free wrapper, and that free wrapper releases exactly the producing
operation's result type. -/
theorem c3_paired_release_per_result_type :
    (wrapperTable.all (fun row =>
      row.2.2.2 ||
        ((wrapperTable.filter (fun row2 => row2.2.2.2 && (row2.2.2.1 == row.2.2.1))).length
          == 1))) = true := by
  decide

/-- C4: each wrapper operation is a pure function of its input with no shared
mutable state: under the state-passing semantics, the returned result is the
same from any two ambient global states (hence equal across any two runs on
equal input) and the ambient state is returned unchanged, for every library
behaviour.  Independence of distinct concurrent calls is rendered as this
absence of state reads and state writes. -/
theorem c4_wrappers_pure_stateless (G : Type) (lib : PgQueryLib) (input : String) (g g' : G) :
    ((pg_query_parse_wrapper_st G lib input g).1 = (pg_query_parse_wrapper_st G lib input g').1 ∧
      (pg_query_parse_wrapper_st G lib input g).2 = g) ∧
    ((pg_query_normalize_wrapper_st G lib input g).1 =
        (pg_query_normalize_wrapper_st G lib input g').1 ∧
      (pg_query_normalize_wrapper_st G lib input g).2 = g) ∧
    ((pg_query_parse_protobuf_wrapper_st G lib input g).1 =
        (pg_query_parse_protobuf_wrapper_st G lib input g').1 ∧
      (pg_query_parse_protobuf_wrapper_st G lib input g).2 = g) ∧
    ((pg_query_fingerprint_wrapper_st G lib input g).1 =
        (pg_query_fingerprint_wrapper_st G lib input g').1 ∧
      (pg_query_fingerprint_wrapper_st G lib input g).2 = g) ∧
    ((pg_query_scan_wrapper_st G lib input g).1 = (pg_query_scan_wrapper_st G lib input g').1 ∧
      (pg_query_scan_wrapper_st G lib input g).2 = g) :=
  ⟨⟨rfl, rfl⟩, ⟨rfl, rfl⟩, ⟨rfl, rfl⟩, ⟨rfl, rfl⟩, ⟨rfl, rfl⟩⟩

/-- C5: over the spec-modelled library, release is idempotent — freeing a
result a second time changes nothing — and releasing a result none of whose
buffers are allocated (empty or never-allocated fields) is a defined no-op,
for every buffer-ownership model, every heap and every result of each of the
five result types. -/
theorem c5_release_idempotent_noop (b : BufModel) (h : Heap)
    (r1 : PgResult (List (List Tok))) (r2 : PgResult String) (r3 : PgResult (List Nat))
    (r4 : PgResult Nat) (r5 : PgResult (List Tok))
    (h1 : ∀ n ∈ b.parseBufs r1, h n = false) (h2 : ∀ n ∈ b.normalizeBufs r2, h n = false)
    (h3 : ∀ n ∈ b.protobufBufs r3, h n = false) (h4 : ∀ n ∈ b.fingerprintBufs r4, h n = false)
    (h5 : ∀ n ∈ b.scanBufs r5, h n = false) :
    (pg_query_free_parse_result_wrapper (modelLib b) r1
        (pg_query_free_parse_result_wrapper (modelLib b) r1 h) =
      pg_query_free_parse_result_wrapper (modelLib b) r1 h ∧
      pg_query_free_parse_result_wrapper (modelLib b) r1 h = h) ∧
    (pg_query_free_normalize_result_wrapper (modelLib b) r2
        (pg_query_free_normalize_result_wrapper (modelLib b) r2 h) =
      pg_query_free_normalize_result_wrapper (modelLib b) r2 h ∧
      pg_query_free_normalize_result_wrapper (modelLib b) r2 h = h) ∧
    (pg_query_free_protobuf_parse_result_wrapper (modelLib b) r3
        (pg_query_free_protobuf_parse_result_wrapper (modelLib b) r3 h) =
      pg_query_free_protobuf_parse_result_wrapper (modelLib b) r3 h ∧
      pg_query_free_protobuf_parse_result_wrapper (modelLib b) r3 h = h) ∧
    (pg_query_free_fingerprint_result_wrapper (modelLib b) r4
        (pg_query_free_fingerprint_result_wrapper (modelLib b) r4 h) =
      pg_query_free_fingerprint_result_wrapper (modelLib b) r4 h ∧
      pg_query_free_fingerprint_result_wrapper (modelLib b) r4 h = h) ∧
    (pg_query_free_scan_result_wrapper (modelLib b) r5
        (pg_query_free_scan_result_wrapper (modelLib b) r5 h) =
      pg_query_free_scan_result_wrapper (modelLib b) r5 h ∧
      pg_query_free_scan_result_wrapper (modelLib b) r5 h = h) :=
  ⟨⟨releaseBufs_idem (b.parseBufs r1) h, releaseBufs_noop (b.parseBufs r1) h h1⟩,
    ⟨releaseBufs_idem (b.normalizeBufs r2) h, releaseBufs_noop (b.normalizeBufs r2) h h2⟩,
    ⟨releaseBufs_idem (b.protobufBufs r3) h, releaseBufs_noop (b.protobufBufs r3) h h3⟩,
    ⟨releaseBufs_idem (b.fingerprintBufs r4) h, releaseBufs_noop (b.fingerprintBufs r4) h h4⟩,
    ⟨releaseBufs_idem (b.scanBufs r5) h, releaseBufs_noop (b.scanBufs r5) h h5⟩⟩

/-- C5 witness: double release equals single release at a concrete buffer
model, result and heap. -/
theorem c5_witness :
    pg_query_free_parse_result_wrapper (modelLib emptyBufModel) (PgResult.mkOk [[]])
        (pg_query_free_parse_result_wrapper (modelLib emptyBufModel) (PgResult.mkOk [[]])
          (fun _ => true)) =
      pg_query_free_parse_result_wrapper (modelLib emptyBufModel) (PgResult.mkOk [[]])
        (fun _ => true) :=
  (c5_release_idempotent_noop emptyBufModel (fun _ => true) (PgResult.mkOk [[]])
    (PgResult.mkOk "") (PgResult.mkOk []) (PgResult.mkOk 0) (PgResult.mkOk [])
    (by simp [emptyBufModel]) (by simp [emptyBufModel]) (by simp [emptyBufModel])
    (by simp [emptyBufModel]) (by simp [emptyBufModel])).1.1

/-- C6: normalization is idempotent over the spec-modelled library — whenever
normalize succeeds on `s` with normalized text `t`, normalizing `t` succeeds
and returns `t` itself, so normalize(normalize(s)) == normalize(s). -/
theorem c6_normalize_idempotent (b : BufModel) (s t : String)
    (h : pg_query_normalize_wrapper (modelLib b) s = PgResult.mkOk t) :
    pg_query_normalize_wrapper (modelLib b) t = PgResult.mkOk t := by
  have hs : normalize_model s = PgResult.mkOk t := h
  show normalize_model t = PgResult.mkOk t
  unfold normalize_model liftLex at hs
  cases hm : tokenizeL 0 s.data with
  | error q =>
    rw [hm] at hs
    simp [PgResult.mkOk, PgResult.mkErr] at hs
  | ok ts =>
    rw [hm] at hs
    have hwf : ∀ u ∈ ts, TokWF u :=
      tokenizeF_wf (s.data.length + 1) 0 s.data ts (by omega) hm
    have hnorm : ∀ u ∈ normToksAux ts 0, NormTok u := normToksAux_wf ts 0 hwf
    have ht : t = String.mk (renderL (normToksAux ts 0)) := by
      simp [PgResult.mkOk] at hs
      exact hs.symm
    subst ht
    unfold normalize_model liftLex
    have hrt : tokenizeL 0 (String.mk (renderL (normToksAux ts 0))).data =
        .ok (normToksAux ts 0) :=
      tokenizeF_renderL (normToksAux ts 0) hnorm 0 ((renderL (normToksAux ts 0)).length + 1)
        (by omega)
    rw [hrt]
    show PgResult.mkOk (String.mk (renderL (normToksAux (normToksAux ts 0) 0))) =
      PgResult.mkOk (String.mk (renderL (normToksAux ts 0)))
    rw [normToksAux_fixpoint (normToksAux ts 0) 0 hnorm]

/-- C6 witness: normalizing an already-normalized concrete query returns it
unchanged. -/
theorem c6_witness :
    pg_query_normalize_wrapper (modelLib emptyBufModel) "SELECT * FROM t WHERE x = $1" =
      PgResult.mkOk "SELECT * FROM t WHERE x = $1" :=
  c6_normalize_idempotent emptyBufModel "SELECT * FROM t WHERE x = 5"
    "SELECT * FROM t WHERE x = $1" (by decide)

/-- The literal-elided token shape of an input: two SQL texts "differ only in
literal values" exactly when both lex successfully and their shapes agree. -/
def elideLex (s : String) : Option (List Tok) :=
  match tokenizeL 0 s.data with
  | .ok ts => some (ts.map tokShape)
  | .error _ => none

/-- C7: over the spec-modelled library, two inputs that differ only in
literal values (both lex, equal literal-elided shapes) have equal
fingerprints. -/
theorem c7_fingerprint_literal_insensitive (b : BufModel) (s1 s2 : String)
    (hsome : (elideLex s1).isSome = true) (heq : elideLex s1 = elideLex s2) :
    pg_query_fingerprint_wrapper (modelLib b) s1 = pg_query_fingerprint_wrapper (modelLib b) s2 := by
  show fingerprint_model s1 = fingerprint_model s2
  unfold fingerprint_model liftLex
  unfold elideLex at hsome heq
  cases hm1 : tokenizeL 0 s1.data with
  | error q => rw [hm1] at hsome; simp at hsome
  | ok ts1 =>
    rw [hm1] at heq
    cases hm2 : tokenizeL 0 s2.data with
    | error q => rw [hm2] at heq; simp at heq
    | ok ts2 =>
      rw [hm2] at heq
      simp at heq
      show PgResult.mkOk (hashChars (renderL (normToksAux ts1 0))) =
        PgResult.mkOk (hashChars (renderL (normToksAux ts2 0)))
      rw [normToksAux_shape_eq ts1 ts2 0 heq]

/-- C7 witness: the concrete scenario — the fingerprints of
`SELECT * FROM t WHERE x = 5` and `SELECT * FROM t WHERE x = 6` agree. -/
theorem c7_witness :
    pg_query_fingerprint_wrapper (modelLib emptyBufModel) "SELECT * FROM t WHERE x = 5" =
      pg_query_fingerprint_wrapper (modelLib emptyBufModel) "SELECT * FROM t WHERE x = 6" :=
  c7_fingerprint_literal_insensitive emptyBufModel "SELECT * FROM t WHERE x = 5"
    "SELECT * FROM t WHERE x = 6" (by decide) (by decide)

/-- C8: over the spec-modelled library, every Result returned by each of the
five public operations is exactly success-xor-failure: it holds the artifact
with no error, or an error with no artifact, never both. -/
theorem c8_results_success_xor_failure (b : BufModel) (s : String) :
    (((pg_query_parse_wrapper (modelLib b) s).artifact.isSome ∧
        (pg_query_parse_wrapper (modelLib b) s).error = none) ∨
      ((pg_query_parse_wrapper (modelLib b) s).artifact = none ∧
        (pg_query_parse_wrapper (modelLib b) s).error.isSome)) ∧
    (((pg_query_normalize_wrapper (modelLib b) s).artifact.isSome ∧
        (pg_query_normalize_wrapper (modelLib b) s).error = none) ∨
      ((pg_query_normalize_wrapper (modelLib b) s).artifact = none ∧
        (pg_query_normalize_wrapper (modelLib b) s).error.isSome)) ∧
    (((pg_query_parse_protobuf_wrapper (modelLib b) s).artifact.isSome ∧
        (pg_query_parse_protobuf_wrapper (modelLib b) s).error = none) ∨
      ((pg_query_parse_protobuf_wrapper (modelLib b) s).artifact = none ∧
        (pg_query_parse_protobuf_wrapper (modelLib b) s).error.isSome)) ∧
    (((pg_query_fingerprint_wrapper (modelLib b) s).artifact.isSome ∧
        (pg_query_fingerprint_wrapper (modelLib b) s).error = none) ∨
      ((pg_query_fingerprint_wrapper (modelLib b) s).artifact = none ∧
        (pg_query_fingerprint_wrapper (modelLib b) s).error.isSome)) ∧
    (((pg_query_scan_wrapper (modelLib b) s).artifact.isSome ∧
        (pg_query_scan_wrapper (modelLib b) s).error = none) ∨
      ((pg_query_scan_wrapper (modelLib b) s).artifact = none ∧
        (pg_query_scan_wrapper (modelLib b) s).error.isSome)) :=
  ⟨liftLex_xor splitStmts s,
    liftLex_xor (fun ts => String.mk (renderL (normToksAux ts 0))) s,
    liftLex_xor serializeToks s,
    liftLex_xor (fun ts => hashChars (renderL (normToksAux ts 0))) s,
    liftLex_xor id s⟩

/-- C9: over the spec-modelled library, failures are reported in-band — each
operation always returns a Result envelope, and whenever that envelope
carries an error, the error's byte offset lies inside the input text, so it
locates the offending SQL substring.  (Line/column are derivable from the
offset and the input.) -/
theorem c9_errors_in_band_with_position (b : BufModel) (s : String) :
    (∀ e, (pg_query_parse_wrapper (modelLib b) s).error = some e → e.cursorpos < s.length) ∧
    (∀ e, (pg_query_normalize_wrapper (modelLib b) s).error = some e → e.cursorpos < s.length) ∧
    (∀ e, (pg_query_parse_protobuf_wrapper (modelLib b) s).error = some e →
      e.cursorpos < s.length) ∧
    (∀ e, (pg_query_fingerprint_wrapper (modelLib b) s).error = some e →
      e.cursorpos < s.length) ∧
    (∀ e, (pg_query_scan_wrapper (modelLib b) s).error = some e → e.cursorpos < s.length) :=
  ⟨fun e he => liftLex_error_pos splitStmts s e he,
    fun e he => liftLex_error_pos (fun ts => String.mk (renderL (normToksAux ts 0))) s e he,
    fun e he => liftLex_error_pos serializeToks s e he,
    fun e he => liftLex_error_pos (fun ts => hashChars (renderL (normToksAux ts 0))) s e he,
    fun e he => liftLex_error_pos id s e he⟩

/-- C9 witness: the error produced for a concrete unterminated literal points
inside the input (offset 7, the opening quote of `'abc`). -/
theorem c9_witness :
    (⟨"unterminated string literal", 7⟩ : PgError).cursorpos < ("SELECT 'abc" : String).length :=
  (c9_errors_in_band_with_position emptyBufModel "SELECT 'abc").1
    ⟨"unterminated string literal", 7⟩ (by decide)

/-- A concrete pointer-level library whose entry points ignore the pointer
and the memory, used to instantiate the frame theorem. -/
def constCLib : CPgQueryLib where
  pg_query_parse := fun _ _ => (PgResult.mkOk [], fun _ => 0)
  pg_query_normalize := fun _ _ => (PgResult.mkOk "", fun _ => 0)
  pg_query_parse_protobuf := fun _ _ => (PgResult.mkOk [], fun _ => 0)
  pg_query_fingerprint := fun _ _ => (PgResult.mkOk 0, fun _ => 0)
  pg_query_scan := fun _ _ => (PgResult.mkOk [], fun _ => 0)

/-- C10: the wrapper layer never reads or writes the input text.  Each
pointer-level wrapper forwards the input pointer to the library unchanged
without dereferencing it — in particular it is defined at the null pointer
and forwards it too; the memory after the call is exactly the memory the
library returned, so whenever the library leaves the input buffer's bytes
unchanged, the whole call leaves them unchanged; and the wrapper itself
performs no read of memory: its output coincides on any two memories on
which the library's does. -/
theorem c10_wrapper_forwards_pointer_frame (lib : CPgQueryLib) (input : Ptr) (m m1 m2 : Mem)
    (hpreserve : ∀ n, (lib.pg_query_parse input m).2 n = m n)
    (hagree : lib.pg_query_scan input m1 = lib.pg_query_scan input m2) :
    pg_query_parse_wrapper_c lib input m = lib.pg_query_parse input m ∧
    pg_query_normalize_wrapper_c lib input m = lib.pg_query_normalize input m ∧
    pg_query_parse_protobuf_wrapper_c lib input m = lib.pg_query_parse_protobuf input m ∧
    pg_query_fingerprint_wrapper_c lib input m = lib.pg_query_fingerprint input m ∧
    pg_query_scan_wrapper_c lib input m = lib.pg_query_scan input m ∧
    pg_query_parse_wrapper_c lib nullPtr m = lib.pg_query_parse nullPtr m ∧
    (∀ n, (pg_query_parse_wrapper_c lib input m).2 n = m n) ∧
    pg_query_scan_wrapper_c lib input m1 = pg_query_scan_wrapper_c lib input m2 :=
  ⟨rfl, rfl, rfl, rfl, rfl, rfl, hpreserve, hagree⟩

/-- C10 witness: at a concrete library and the null pointer, the bytes of
memory are unchanged across the call and the wrapper's output does not
depend on memory the library ignores. -/
theorem c10_witness :
    (∀ n, (pg_query_parse_wrapper_c constCLib nullPtr (fun _ => 0)).2 n =
      (fun _ : Nat => (0 : Nat)) n) ∧
    pg_query_scan_wrapper_c constCLib nullPtr (fun _ => 1) =
      pg_query_scan_wrapper_c constCLib nullPtr (fun _ => 2) :=
  ⟨(c10_wrapper_forwards_pointer_frame constCLib nullPtr (fun _ => 0) (fun _ => 1)
      (fun _ => 2) (fun _ => rfl) rfl).2.2.2.2.2.2.1,
    (c10_wrapper_forwards_pointer_frame constCLib nullPtr (fun _ => 0) (fun _ => 1)
      (fun _ => 2) (fun _ => rfl) rfl).2.2.2.2.2.2.2⟩
